import Mathlib

/-!
Verification development for the request-execution engine of the
terraform-provider-restapi repository.

The development shallowly embeds, in Lean, the Go code of
`api_client.go` (`apiClientOpt`, `NewAPIClient`, `APIClient.sendRequest`)
and `api_auth.go` (`parseScopes`, `GetGCPOauthToken`), together with the
behavior of the external collaborators those functions drive:

* `sethvargo/go-retry` (`retry.NewConstant`, `retry.WithMaxDuration`,
  `retry.Do`, `retry.RetryableError`): embedded from the library's
  documented semantics — `Do` calls the body; a `nil` result ends the
  loop; a non-retryable error is returned as-is; a retryable error asks
  the backoff for the next delay (`none` = stop, returning the unwrapped
  error) and sleeps it before the next attempt.  `WithMaxDuration`
  captures its start time at construction and stops once the elapsed
  time reaches the bound, otherwise clamping the inner delay to the
  remaining budget.
* `net/http` header handling: `Header.Set` replaces the value stored
  under a key; `Request.SetBasicAuth` sets the `Authorization` header to
  `"Basic " ++ base64(user ++ ":" ++ pass)`.
* `encoding/json.Unmarshal` into `interface{}`: embedded as a JSON
  parser producing a `Json` value (an unchecked Go type assertion
  `.(map[string]interface{})` on a non-object value panics).

Time is modelled as an integer number of seconds; network effects (the
HTTP exchange, token-endpoint calls) are supplied by an environment
indexed by the attempt number.  Go strings are modelled as Lean strings
(URIs and bodies in this code are byte-per-char ASCII, so byte slicing
agrees with character slicing); where general string reasoning is
needed the character-list view is used.
-/

namespace RestApi

/-! ## Go string helpers -/

/-- Model of `strings.HasSuffix(s, "/")` on the character-list view. -/
def hasTrailingSlash (u : List Char) : Bool :=
  List.isSuffixOf [ '/' ] u

/-- Model of the trailing-slash strip in `NewAPIClient`
(`opt.uri = opt.uri[:len(opt.uri)-1]`, guarded by `strings.HasSuffix`):
exactly one trailing slash is removed. -/
def goStripSlash (u : List Char) : List Char :=
  if hasTrailingSlash u then u.dropLast else u

/-- String-typed wrapper of `goStripSlash`, used at construction. -/
def goStripSlashStr (s : String) : String :=
  String.mk (goStripSlash s.toList)

/-- The request URI of `sendRequest`: `client.uri + path`, where
`client.uri` has already been stripped at construction (character-list
view, used for the slash-junction analysis). -/
def requestUriChars (strippedBase path : List Char) : List Char :=
  strippedBase ++ path

/-- Length of the run of consecutive slashes at the head of a string. -/
def leadingSlashRun : List Char → Nat
  | [] => 0
  | c :: cs => if c = '/' then leadingSlashRun cs + 1 else 0

/-- Length of the run of consecutive slashes at the end of a string. -/
def trailingSlashRun (l : List Char) : Nat :=
  leadingSlashRun l.reverse

/-- Number of consecutive slashes sitting at the junction of the
(stripped) base URI and the appended path in the effective request URI. -/
def junctionSlashes (strippedBase path : List Char) : Nat :=
  trailingSlashRun strippedBase + leadingSlashRun path

/-- Model of `strings.Contains(s, sub)`. -/
def goContains (s sub : String) : Bool :=
  decide (sub.toList <:+: s.toList)

/-- Model of `strings.TrimPrefix(s, p)`: drop `p` from the front of `s`
when it is there, otherwise return `s` unchanged. -/
def goTrimLeft (s p : String) : String :=
  if List.isPrefixOf p.toList s.toList then String.mk (s.toList.drop p.toList.length) else s

/-! ## base64 (Go `encoding/base64.StdEncoding`, used by `SetBasicAuth`) -/

def b64Alphabet : List Char :=
  String.toList "ABCDEFGHIJKLMNOPQRSTUVWXYZabcdefghijklmnopqrstuvwxyz0123456789+/"

def b64Char (n : Nat) : Char :=
  b64Alphabet.getD n 'A'

/-- Standard base64 of a byte list, with `=` padding. -/
def base64Go : List Nat → List Char
  | [] => []
  | [a] => [b64Char (a / 4), b64Char (a % 4 * 16), '=', '=']
  | [a, b] => [b64Char (a / 4), b64Char (a % 4 * 16 + b / 16), b64Char (b % 16 * 4), '=']
  | a :: b :: c :: rest =>
      b64Char (a / 4) :: b64Char (a % 4 * 16 + b / 16) ::
        b64Char (b % 16 * 4 + c / 64) :: b64Char (c % 64) :: base64Go rest

/-- Bytes of an ASCII string (the model identifies bytes and chars). -/
def strBytes (s : String) : List Nat :=
  s.toList.map Char.toNat

/-- The header value written by `Request.SetBasicAuth(username, password)`:
`"Basic " + base64(username + ":" + password)`. -/
def basicAuthValue (username password : String) : String :=
  "Basic " ++ String.mk (base64Go (strBytes (username ++ ":" ++ password)))

/-! ## JSON values and a model of `encoding/json.Unmarshal` -/

/-- The Go value produced by `json.Unmarshal` into `interface{}`:
`nil`, `bool`, `float64`, `string`, `[]interface{}` or
`map[string]interface{}`.  Numeric magnitude is modelled to integer
precision: the embedded code only ever inspects the kind of the value
and the contents of string fields, never a numeric payload. -/
inductive Json where
  | null
  | bool (b : Bool)
  | num (n : Int)
  | str (s : String)
  | arr (xs : List Json)
  | obj (kvs : List (String × Json))

def quoteChar : Char := Char.ofNat 34
def backslashChar : Char := Char.ofNat 92
def lbraceChar : Char := Char.ofNat 123
def rbraceChar : Char := Char.ofNat 125

/-- Skip JSON whitespace. -/
def skipWs : List Char → List Char
  | c :: cs =>
      if c = ' ' ∨ c = Char.ofNat 10 ∨ c = Char.ofNat 9 ∨ c = Char.ofNat 13 then skipWs cs
      else c :: cs
  | [] => []

def hexVal (c : Char) : Option Nat :=
  if '0' ≤ c ∧ c ≤ '9' then some (c.toNat - 48)
  else if 'a' ≤ c ∧ c ≤ 'f' then some (c.toNat - 87)
  else if 'A' ≤ c ∧ c ≤ 'F' then some (c.toNat - 55)
  else none

def digitVal (c : Char) : Option Nat :=
  if '0' ≤ c ∧ c ≤ '9' then some (c.toNat - 48) else none

/-- Take a maximal run of decimal digits. -/
def takeDigits : List Char → List Nat × List Char
  | c :: cs =>
      match digitVal c with
      | some d => let p := takeDigits cs; (d :: p.1, p.2)
      | none => ([], c :: cs)
  | [] => ([], [])

def digitsToNat (ds : List Nat) : Nat :=
  ds.foldl (fun acc d => acc * 10 + d) 0

/-- Match an exact literal tail (for `null`, `true`, `false`). -/
def matchChars : List Char → List Char → Option (List Char)
  | [], rest => some rest
  | l :: ls, c :: cs => if c = l then matchChars ls cs else none
  | _ :: _, [] => none

/-- Body of a JSON string after the opening quote; handles the standard
escapes.  Returns the decoded characters and the remainder after the
closing quote. -/
def parseJsonStringChars : Nat → List Char → Option (List Char × List Char)
  | 0, _ => none
  | Nat.succ fuel, cs =>
      match cs with
      | [] => none
      | c :: rest =>
          if c = quoteChar then some ([], rest)
          else if c = backslashChar then
            match rest with
            | [] => none
            | e :: rest2 =>
                let dec : Option (Char × List Char) :=
                  if e = quoteChar then some (quoteChar, rest2)
                  else if e = backslashChar then some (backslashChar, rest2)
                  else if e = '/' then some ( '/', rest2)
                  else if e = 'n' then some (Char.ofNat 10, rest2)
                  else if e = 't' then some (Char.ofNat 9, rest2)
                  else if e = 'r' then some (Char.ofNat 13, rest2)
                  else if e = 'b' then some (Char.ofNat 8, rest2)
                  else if e = 'f' then some (Char.ofNat 12, rest2)
                  else if e = 'u' then
                    match rest2 with
                    | h1 :: h2 :: h3 :: h4 :: rest3 =>
                        match hexVal h1, hexVal h2, hexVal h3, hexVal h4 with
                        | some a, some b, some c2, some d =>
                            some (Char.ofNat (((a * 16 + b) * 16 + c2) * 16 + d), rest3)
                        | _, _, _, _ => none
                    | _ => none
                  else none
                match dec with
                | none => none
                | some (ch, rest3) =>
                    match parseJsonStringChars fuel rest3 with
                    | none => none
                    | some (tail, rem) => some (ch :: tail, rem)
          else
            match parseJsonStringChars fuel rest with
            | none => none
            | some (tail, rem) => some (c :: tail, rem)

/-- A JSON number after an optional leading minus: integer part,
optional fraction and exponent (consumed, magnitude folded to the
integer part — see `Json.num`). -/
def parseJsonNumberTail (neg : Bool) (cs : List Char) : Option (Json × List Char) :=
  match takeDigits cs with
  | ([], _) => none
  | (ds, rest) =>
      let rest2 :=
        match rest with
        | '.' :: r =>
            match takeDigits r with
            | ([], _) => none
            | (_, r2) => some r2
        | _ => some rest
      match rest2 with
      | none => none
      | some r3 =>
          let r5 :=
            match r3 with
            | 'e' :: r4 =>
                match r4 with
                | '+' :: r6 => (takeDigits r6).2
                | '-' :: r6 => (takeDigits r6).2
                | _ => (takeDigits r4).2
            | 'E' :: r4 =>
                match r4 with
                | '+' :: r6 => (takeDigits r6).2
                | '-' :: r6 => (takeDigits r6).2
                | _ => (takeDigits r4).2
            | _ => r3
          let v : Int := Int.ofNat (digitsToNat ds)
          some (Json.num (if neg then -v else v), r5)

mutual

/-- Fueled recursive-descent parser for one JSON value. -/
def parseJsonValue : Nat → List Char → Option (Json × List Char)
  | 0, _ => none
  | Nat.succ fuel, cs =>
      match skipWs cs with
      | [] => none
      | c :: rest =>
          if c = 'n' then
            (matchChars (String.toList "ull") rest).map (fun r => (Json.null, r))
          else if c = 't' then
            (matchChars (String.toList "rue") rest).map (fun r => (Json.bool true, r))
          else if c = 'f' then
            (matchChars (String.toList "alse") rest).map (fun r => (Json.bool false, r))
          else if c = quoteChar then
            (parseJsonStringChars (rest.length + 1) rest).map
              (fun p => (Json.str (String.mk p.1), p.2))
          else if c = '-' then
            parseJsonNumberTail true rest
          else if (digitVal c).isSome then
            parseJsonNumberTail false (c :: rest)
          else if c = '[' then
            match skipWs rest with
            | ']' :: r => some (Json.arr [], r)
            | r2 => (parseJsonElems fuel r2).map (fun p => (Json.arr p.1, p.2))
          else if c = lbraceChar then
            match skipWs rest with
            | r =>
                if r.head? = some rbraceChar then some (Json.obj [], r.tail)
                else (parseJsonMembers fuel r).map (fun p => (Json.obj p.1, p.2))
          else none

/-- One-or-more comma-separated array elements, then `]`. -/
def parseJsonElems : Nat → List Char → Option (List Json × List Char)
  | 0, _ => none
  | Nat.succ fuel, cs =>
      match parseJsonValue fuel cs with
      | none => none
      | some (v, rest) =>
          match skipWs rest with
          | ',' :: r => (parseJsonElems fuel r).map (fun p => (v :: p.1, p.2))
          | ']' :: r => some ([v], r)
          | _ => none

/-- One-or-more comma-separated object members, then the closing brace. -/
def parseJsonMembers : Nat → List Char → Option (List (String × Json) × List Char)
  | 0, _ => none
  | Nat.succ fuel, cs =>
      match skipWs cs with
      | c :: rest =>
          if c = quoteChar then
            match parseJsonStringChars (rest.length + 1) rest with
            | none => none
            | some (key, rest2) =>
                match skipWs rest2 with
                | ':' :: rest3 =>
                    match parseJsonValue fuel rest3 with
                    | none => none
                    | some (v, rest4) =>
                        match skipWs rest4 with
                        | ',' :: r =>
                            (parseJsonMembers fuel r).map
                              (fun p => ((String.mk key, v) :: p.1, p.2))
                        | r2 =>
                            if r2.head? = some rbraceChar then
                              some ([(String.mk key, v)], r2.tail)
                            else none
                | _ => none
          else none
      | [] => none

end

/-- Model of `json.Unmarshal([]byte(body), &result)` with
`result : interface{}`: `none` is a parse error, `some v` the decoded
value.  Trailing non-whitespace input is an error, as in Go. -/
def jsonUnmarshal (s : String) : Option Json :=
  match parseJsonValue (s.toList.length + 1) s.toList with
  | some (v, rest) => if skipWs rest = [] then some v else none
  | none => none

/-- The Go type assertion `result.(map[string]interface{})`: succeeds
exactly on objects; the embedding's caller maps `none` to a panic. -/
def asObject : Json → Option (List (String × Json))
  | Json.obj kvs => some kvs
  | _ => none

/-! ## Configuration and state (api_client.go, api_auth.go) -/

/-- `AsyncSettings` as used by `sendRequest`: poll interval and maximum
polling duration in seconds, redirect key and search key/value.  (The
struct is declared outside the available sources; its fields and types
are exactly those read in `sendRequest` and set in the tests.) -/
structure AsyncSettings where
  PollInterval : Nat
  MaximumPollingDuration : Nat
  RedirectUriKey : String
  SearchKey : String
  SearchValue : String
deriving DecidableEq

/-- `GCPOauthConfig` from api_auth.go. -/
structure GCPOauthConfig where
  scopes : List String
  serviceAccountKey : String
  audience : String
deriving DecidableEq

/-- `AzureOauthConfig` from api_auth.go (the fields `sendRequest`
depends on; the token exchange itself is network I/O supplied by the
environment). -/
structure AzureOauthConfig where
  Scope : String
  TenantId : String
  ClientId : String
  ClientAssertionType : String
  GrantType : String
deriving DecidableEq

/-- The generic OAuth2 `clientcredentials.Config` stored on the client. -/
structure OauthCCConfig where
  ClientID : String
  ClientSecret : String
  TokenURL : String
  Scopes : List String
  EndpointParams : List (String × List String)
deriving DecidableEq

/-- `oauth2.Token`, with expiry on the model timeline (seconds). -/
structure Token where
  AccessToken : String
  Expiry : Int
deriving DecidableEq

/-- The Go error values produced along `sendRequest`. -/
inductive GoErr where
  | message (s : String)
  | statusErr (code : Nat) (body : String)
  | jsonSyntax
  | keyMissing (k : String)
  | keyWrongType (k : String)
  | tokenErr (s : String)
  | readFailure (s : String)
deriving DecidableEq

/-- Modelled from the spec: `GetStringAtKey` is defined in a repository
file that is not under the available sources (only its call sites in
`sendRequest` are).  The spec requires it to extract the string value
at the key, failing when the key is missing or its value is not a
string; the not-an-object case is handled before the call by the
caller's type assertion. -/
def getStringAtKey (kvs : List (String × Json)) (key : String) : Except GoErr String :=
  match kvs.lookup key with
  | some (Json.str s) => Except.ok s
  | some _ => Except.error (GoErr.keyWrongType key)
  | none => Except.error (GoErr.keyMissing key)

/-- The immutable part of `APIClient` read by `sendRequest`. -/
structure APIClient where
  uri : String
  username : String
  password : String
  bearer : String
  headers : List (String × String)
  xssiPfx : String
  oauthConfig : Option OauthCCConfig
  azureOauthConfig : Option AzureOauthConfig
  AsyncSettings : Option AsyncSettings
deriving DecidableEq

/-- The mutable client state shared across calls: the cached GCP token
(`client.gcpOauthToken`) and the pointed-to `GCPOauthConfig`, whose
`scopes` slice `parseScopes` rewrites in place. -/
structure ClientState where
  gcpOauthToken : Option Token
  gcpOauthConfig : Option GCPOauthConfig
deriving DecidableEq

/-! ## Token acquisition (api_auth.go) -/

def scopePrefixStr : String := "https://www.googleapis.com/auth/"

/-- The anchored regexp `^(openid|profile|email)$`. -/
def openIdScopesMatch (s : String) : Bool :=
  s == "openid" || s == "profile" || s == "email"

/-- Loop body of `parseScopes`: a scope neither containing a double
slash nor matching the open-id regexp gets the Google scope base URL
prepended; others are left unchanged. -/
def rewriteScope (s : String) : String :=
  if !goContains s "//" && !openIdScopesMatch s then scopePrefixStr ++ s else s

/-- `parseScopes` rewrites the slice in place; this is the resulting
slice contents. -/
def parseScopesList (scopes : List String) : List String :=
  scopes.map rewriteScope

/-- The string `parseScopes` returns: the rewritten scopes joined with
single spaces (`strings.Join(scopes, " ")`). -/
def parseScopesJoined (scopes : List String) : String :=
  String.intercalate " " (parseScopesList scopes)

/-- `GetGCPOauthToken`: `parseScopes` mutates `cfg.scopes` (through the
shared pointer) before `util.FetchToken` runs; the fetch itself is
network I/O whose result the environment supplies.  Returns the updated
config alongside the fetch result. -/
def getGCPOauthToken (cfg : GCPOauthConfig) (fetchResult : Except String Token) :
    GCPOauthConfig × Except String Token :=
  ({ cfg with scopes := parseScopesList cfg.scopes }, fetchResult)

/-! ## The per-attempt environment -/

/-- Result of `client.httpClient.Do(req)` plus the body read:
a transport-level error, a read failure after a successful exchange, or
a status code with a raw body. -/
inductive HttpResult where
  | resp (status : Nat) (body : String)
  | transportErr (msg : String)
  | readFail (msg : String)
deriving DecidableEq

/-- Everything the outside world contributes to one attempt of the
retry loop: the HTTP exchange, the wall time it consumes (rate-limiter
wait included), and the results of whichever token-endpoint calls the
attempt makes. -/
structure AttemptEnv where
  http : HttpResult
  duration : Nat
  oauthToken : Except String String
  gcpFetch : Except String Token
  azureToken : Except String Token

/-! ## Header construction (sendRequest lines 302-393) -/

/-- `http.Header.Set`: replace whatever is stored under the key. -/
def setHeader (hs : List (String × String)) (k v : String) : List (String × String) :=
  hs.filter (fun p => p.1 != k) ++ [(k, v)]

/-- Header lookup. -/
def getHeader (hs : List (String × String)) (k : String) : Option String :=
  hs.lookup k

/-- The expiry test of the GCP branch, verbatim from
`time.Now().Add(-time.Minute).After(token.Expiry)`: the token counts as
expired exactly when `now - 60s` is strictly after the reported expiry. -/
def gcpExpired (now expiry : Int) : Bool :=
  decide (expiry < now - 60)

/-- The GCP branch of `sendRequest` (reuse the cached token unless it
is absent or `gcpExpired`; otherwise fetch through `GetGCPOauthToken`
and cache the result).  On a fetch error the config rewrite performed
by `parseScopes` has already happened, so the updated config is
returned either way. -/
def gcpAuthStep (fetchResult : Except String Token) (now : Int) (cached : Option Token)
    (cfg : GCPOauthConfig) :
    Except (String × GCPOauthConfig) (Token × Option Token × GCPOauthConfig) :=
  let empty_token := cached.isNone
  let expired_token :=
    !empty_token && gcpExpired now (cached.getD { AccessToken := "", Expiry := 0 }).Expiry
  if empty_token || expired_token then
    match getGCPOauthToken cfg fetchResult with
    | (cfg2, Except.error m) => Except.error (m, cfg2)
    | (cfg2, Except.ok tok) => Except.ok (tok, some tok, cfg2)
  else
    Except.ok (cached.getD { AccessToken := "", Expiry := 0 }, cached, cfg)

/-- Header construction for one attempt, in the source's order: the
`Content-Type` default for non-empty bodies, the configured headers,
the static bearer, the generic OAuth2 bearer, the GCP bearer, the Azure
bearer, and finally `SetBasicAuth` when username and password are both
set.  A token error aborts the attempt; the client state reached so far
(the GCP cache/config) is kept, as it lives on the client. -/
def buildHeaders (client : APIClient) (e : AttemptEnv) (now : Int) (reqBody : String)
    (ks : ClientState) :
    Except (GoErr × ClientState) (List (String × String) × ClientState) :=
  let hdr0 : List (String × String) :=
    if reqBody = "" then [] else [("Content-Type", "application/json")]
  let hdr1 := client.headers.foldl (fun h p => setHeader h p.1 p.2) hdr0
  let hdr2 :=
    if client.bearer ≠ "" then setHeader hdr1 "Authorization" ("Bearer " ++ client.bearer)
    else hdr1
  let oauthStage : Except GoErr (List (String × String)) :=
    match client.oauthConfig with
    | none => Except.ok hdr2
    | some _ =>
        match e.oauthToken with
        | Except.error m => Except.error (GoErr.tokenErr m)
        | Except.ok accessToken =>
            Except.ok (setHeader hdr2 "Authorization" ("Bearer " ++ accessToken))
  match oauthStage with
  | Except.error er => Except.error (er, ks)
  | Except.ok hdr3 =>
      let gcpStage : Except (GoErr × ClientState) (List (String × String) × ClientState) :=
        match ks.gcpOauthConfig with
        | none => Except.ok (hdr3, ks)
        | some cfg =>
            match gcpAuthStep e.gcpFetch now ks.gcpOauthToken cfg with
            | Except.error (m, cfg2) =>
                Except.error (GoErr.tokenErr m,
                  { gcpOauthToken := ks.gcpOauthToken, gcpOauthConfig := some cfg2 })
            | Except.ok (tok, cache2, cfg2) =>
                Except.ok (setHeader hdr3 "Authorization" ("Bearer " ++ tok.AccessToken),
                  { gcpOauthToken := cache2, gcpOauthConfig := some cfg2 })
      match gcpStage with
      | Except.error p => Except.error p
      | Except.ok (hdr4, ks2) =>
          let azureStage : Except GoErr (List (String × String)) :=
            match client.azureOauthConfig with
            | none => Except.ok hdr4
            | some _ =>
                match e.azureToken with
                | Except.error m => Except.error (GoErr.tokenErr m)
                | Except.ok tok =>
                    Except.ok (setHeader hdr4 "Authorization" ("Bearer " ++ tok.AccessToken))
          match azureStage with
          | Except.error er => Except.error (er, ks2)
          | Except.ok hdr5 =>
              let hdr6 :=
                if client.username ≠ "" ∧ client.password ≠ "" then
                  setHeader hdr5 "Authorization" (basicAuthValue client.username client.password)
                else hdr5
              Except.ok (hdr6, ks2)

/-! ## One attempt of the retry loop -/

/-- How the closure passed to `retry.Do` can end. -/
inductive StepExit where
  | ok
  | errPlain (e : GoErr)
  | errRetryable (e : GoErr)
  | fatal (e : GoErr)
  | panicked
deriving DecidableEq

/-- The per-call mutable variables of `sendRequest` (the closure's
captures), plus two ghost fields used only by the verification:
`redirectCount` counts redirect rewrites, `attemptTimes` logs each
attempt's start time. -/
structure CallState where
  requestUri : String
  requestMethod : String
  requestBody : String
  requestIsRedirected : Bool
  responseBody : String
  redirectCount : Nat
  attemptTimes : List Nat
deriving DecidableEq

def redirectMsg : String := "should retry with new path"

def mismatchMsg : String := "async search value not found, retrying"

/-- The redirect-follow and search-poll blocks run on a 2xx body
(sendRequest lines 473-522). -/
def processAsync (client : APIClient) (body : String) (cs : CallState) :
    StepExit × CallState :=
  match client.AsyncSettings with
  | none => (StepExit.ok, cs)
  | some a =>
      if a.RedirectUriKey ≠ "" ∧ cs.requestIsRedirected = false then
        match jsonUnmarshal body with
        | none => (StepExit.errPlain GoErr.jsonSyntax, cs)
        | some v =>
            match asObject v with
            | none => (StepExit.panicked, cs)
            | some kvs =>
                match getStringAtKey kvs a.RedirectUriKey with
                | Except.error er => (StepExit.errPlain er, cs)
                | Except.ok uriStr =>
                    (StepExit.errRetryable (GoErr.message redirectMsg),
                     { cs with requestUri := uriStr, requestMethod := "GET",
                               requestIsRedirected := true, requestBody := "",
                               redirectCount := cs.redirectCount + 1 })
      else if a.SearchKey ≠ "" ∧ a.SearchValue ≠ "" then
        match jsonUnmarshal body with
        | none => (StepExit.errPlain GoErr.jsonSyntax, cs)
        | some v =>
            match asObject v with
            | none => (StepExit.panicked, cs)
            | some kvs =>
                match getStringAtKey kvs a.SearchKey with
                | Except.error er => (StepExit.errPlain er, cs)
                | Except.ok value =>
                    if value ≠ a.SearchValue then
                      (StepExit.errRetryable (GoErr.message mismatchMsg), cs)
                    else (StepExit.ok, cs)
      else (StepExit.ok, cs)

/-- One run of the closure handed to `retry.Do`: build the request and
its headers, exchange it (environment-supplied), strip the XSSI marker,
check the status window, then run the async blocks.  A transport error
hits `log.Fatal` in the source, which terminates the process — modelled
as `StepExit.fatal`. -/
def sendStep (client : APIClient) (e : AttemptEnv) (now : Int) (cs : CallState)
    (ks : ClientState) : StepExit × CallState × ClientState :=
  match buildHeaders client e now cs.requestBody ks with
  | Except.error (er, ks1) => (StepExit.errPlain er, cs, ks1)
  | Except.ok (_, ks1) =>
      match e.http with
      | HttpResult.transportErr m => (StepExit.fatal (GoErr.message m), cs, ks1)
      | HttpResult.readFail m => (StepExit.errPlain (GoErr.readFailure m), cs, ks1)
      | HttpResult.resp status raw =>
          let body := goTrimLeft raw client.xssiPfx
          let cs1 := { cs with responseBody := body }
          if status < 200 ∨ 300 ≤ status then
            (StepExit.errPlain (GoErr.statusErr status body), cs1, ks1)
          else
            ((processAsync client body cs1).1, (processAsync client body cs1).2, ks1)

/-! ## The backoff driver (sethvargo/go-retry) -/

/-- The backoff built at the top of `sendRequest`: a constant interval
(1s, or the configured positive poll interval), optionally wrapped in
`WithMaxDuration` when a positive maximum polling duration is set;
`start` is the wrapper's captured construction time. -/
structure Backoff where
  interval : Nat
  maxDuration : Option Nat
  start : Nat
deriving DecidableEq

def makeBackoff (client : APIClient) (t0 : Nat) : Backoff :=
  let interval :=
    match client.AsyncSettings with
    | some a => if 0 < a.PollInterval then a.PollInterval else 1
    | none => 1
  let maxDur :=
    match client.AsyncSettings with
    | some a => if 0 < a.MaximumPollingDuration then some a.MaximumPollingDuration else none
    | none => none
  { interval := interval, maxDuration := maxDur, start := t0 }

/-- `Backoff.Next` at wall time `now`: `none` means stop.  The plain
constant backoff always yields its interval; `WithMaxDuration` stops
once the budget is exhausted and otherwise clamps the inner delay to
the remaining budget. -/
def backoffNext (b : Backoff) (now : Nat) : Option Nat :=
  match b.maxDuration with
  | none => some b.interval
  | some m =>
      let elapsed := now - b.start
      if m ≤ elapsed then none
      else
        let diff := m - elapsed
        some (if b.interval = 0 ∨ diff < b.interval then diff else b.interval)

/-- Result of a whole `sendRequest` call.  `retry.Do` returning `nil`
is `success`; a returned error is `failure`; `fatalExit` is the
process-terminating `log.Fatal` path; `panicked` the runtime panic of
the unchecked type assertion; `outOfFuel` means the modelled loop was
cut before reaching any of these. -/
inductive CallOutcome where
  | success
  | failure (e : GoErr)
  | fatalExit (e : GoErr)
  | panicked
  | outOfFuel
deriving DecidableEq

/-- Ghost bookkeeping: log the attempt's start time. -/
def logAttempt (cs : CallState) (now : Nat) : CallState :=
  { cs with attemptTimes := cs.attemptTimes ++ [now] }

/-- `retry.Do`: run the closure; `nil` ends the loop; a non-retryable
error is returned as-is; a retryable error consults the backoff —
stop returns the unwrapped error, otherwise the delay elapses and the
loop re-enters. -/
def retryDo (client : APIClient) (env : Nat → AttemptEnv) (b : Backoff) :
    Nat → Nat → Nat → CallState → ClientState → CallOutcome × CallState × ClientState
  | 0, _, _, cs, ks => (CallOutcome.outOfFuel, cs, ks)
  | Nat.succ fuel, i, now, cs, ks =>
      match sendStep client (env i) (Int.ofNat now) (logAttempt cs now) ks with
      | (StepExit.ok, cs1, ks1) => (CallOutcome.success, cs1, ks1)
      | (StepExit.fatal er, cs1, ks1) => (CallOutcome.fatalExit er, cs1, ks1)
      | (StepExit.panicked, cs1, ks1) => (CallOutcome.panicked, cs1, ks1)
      | (StepExit.errPlain er, cs1, ks1) => (CallOutcome.failure er, cs1, ks1)
      | (StepExit.errRetryable er, cs1, ks1) =>
          match backoffNext b (now + (env i).duration) with
          | none => (CallOutcome.failure er, cs1, ks1)
          | some d => retryDo client env b fuel (i + 1) (now + (env i).duration + d) cs1 ks1

/-- The captures of the closure at the top of `sendRequest`. -/
def initialCallState (client : APIClient) (method path data : String) : CallState :=
  { requestUri := client.uri ++ path, requestMethod := method, requestBody := data,
    requestIsRedirected := false, responseBody := "", redirectCount := 0, attemptTimes := [] }

/-- `APIClient.sendRequest`, driven by the environment, starting at
wall time `t0`. -/
def sendRequest (client : APIClient) (env : Nat → AttemptEnv) (fuel t0 : Nat)
    (method path data : String) (ks : ClientState) :
    CallOutcome × CallState × ClientState :=
  retryDo client env (makeBackoff client t0) fuel 0 t0
    (initialCallState client method path data) ks

/-! ## Construction (NewAPIClient lines 129-155) -/

/-- `apiClientOpt`: the caller-owned option record `NewAPIClient`
receives a pointer to.  `rateLimit` is a `float64` in the source; only
its identity matters to the frame analysis, so it is carried opaquely
as an integer.  The source's `xssiPrefix` field is carried under the
name `xssiPfx` here (as on `APIClient`). -/
structure ApiClientOpt where
  uri : String
  insecure : Bool
  username : String
  password : String
  bearer : String
  headers : List (String × String)
  timeout : Nat
  idAttribute : String
  createMethod : String
  readMethod : String
  updateMethod : String
  updateData : String
  destroyMethod : String
  destroyData : String
  copyKeys : List String
  writeReturnsObject : Bool
  createReturnsObject : Bool
  xssiPfx : String
  useCookies : Bool
  rateLimit : Nat
  oauthClientID : String
  oauthClientSecret : String
  oauthScopes : List String
  oauthTokenURL : String
  oauthEndpointParams : List (String × List String)
  certFile : String
  keyFile : String
  certString : String
  keyString : String
  debug : Bool
  GCPOauthConfig : Option GCPOauthConfig
  AzureOauthConfig : Option AzureOauthConfig
  AsyncSettings : Option AsyncSettings
deriving DecidableEq

/-- Lines 129-155 of `NewAPIClient`: the only statements in the whole
constructor that assign to `*opt`.  An empty URI fails construction
before any write; otherwise the defaults and the stripped URI are
written back through the pointer (the remainder of the constructor,
TLS and transport setup, only reads `opt`). -/
def applyOptDefaults (opt : ApiClientOpt) : Except String ApiClientOpt :=
  if opt.uri = "" then Except.error "uri must be set to construct an API client"
  else
    let opt1 := if opt.idAttribute = "" then { opt with idAttribute := "id" } else opt
    let opt2 := { opt1 with uri := goStripSlashStr opt1.uri }
    let opt3 := if opt2.createMethod = "" then { opt2 with createMethod := "POST" } else opt2
    let opt4 := if opt3.readMethod = "" then { opt3 with readMethod := "GET" } else opt3
    let opt5 := if opt4.updateMethod = "" then { opt4 with updateMethod := "PUT" } else opt4
    let opt6 := if opt5.destroyMethod = "" then { opt5 with destroyMethod := "DELETE" } else opt5
    Except.ok opt6

/-! ## Invariants used by the temporal claims -/

/-- The redirect invariant of a call: the ghost redirect counter never
exceeds one, and it is still zero while the one-shot
`requestIsRedirected` flag is unset. -/
def redirInv (cs : CallState) : Prop :=
  cs.redirectCount ≤ 1 ∧ (cs.requestIsRedirected = false → cs.redirectCount = 0)

/-! ## Concrete scenario fixtures -/

/-- A 2xx response carrying `b`. -/
def okResp (b : String) : HttpResult := HttpResult.resp 200 b

/-- An attempt environment with the given HTTP result and duration and
uneventful token endpoints. -/
def baseEnv (h : HttpResult) (d : Nat) : AttemptEnv :=
  { http := h, duration := d, oauthToken := Except.ok "OTOK",
    gcpFetch := Except.ok { AccessToken := "fresh", Expiry := 1000 },
    azureToken := Except.ok { AccessToken := "az", Expiry := 1000 } }

/-- A minimally configured client: no credentials, no async settings. -/
def plainClient : APIClient :=
  { uri := "http://x", username := "", password := "", bearer := "", headers := [],
    xssiPfx := "", oauthConfig := none, azureOauthConfig := none, AsyncSettings := none }

/-- Client state with no GCP configuration. -/
def ks0 : ClientState := { gcpOauthToken := none, gcpOauthConfig := none }

/-- Async settings polling for `Status == Done`. -/
def searchSettings : AsyncSettings :=
  { PollInterval := 0, MaximumPollingDuration := 0, RedirectUriKey := "",
    SearchKey := "Status", SearchValue := "Done" }

/-- A client polling for `Status == Done` with default backoff. -/
def searchClient : APIClient := { plainClient with AsyncSettings := some searchSettings }

/-- The same polling client with a 2-second maximum polling duration. -/
def cappedSearchSettings : AsyncSettings :=
  { searchSettings with PollInterval := 1, MaximumPollingDuration := 2 }

def cappedSearchClient : APIClient :=
  { plainClient with AsyncSettings := some cappedSearchSettings }

/-- Redirect-following settings with a 2-second maximum polling
duration. -/
def cappedRedirectSettings : AsyncSettings :=
  { PollInterval := 1, MaximumPollingDuration := 2, RedirectUriKey := "RedirectURI",
    SearchKey := "", SearchValue := "" }

def cappedRedirectClient : APIClient :=
  { plainClient with AsyncSettings := some cappedRedirectSettings }

/-- Redirect-following settings, uncapped, with a 5-second poll
interval. -/
def slowRedirectSettings : AsyncSettings :=
  { PollInterval := 5, MaximumPollingDuration := 0, RedirectUriKey := "RedirectURI",
    SearchKey := "", SearchValue := "" }

def slowRedirectClient : APIClient :=
  { plainClient with AsyncSettings := some slowRedirectSettings }

/-- The first response body of the redirect scenarios. -/
def jsonRedirectBody : String := "\x7b\"RedirectURI\":\"/next\"\x7d"

/-- A pending poll response body. -/
def pendingBody : String := "\x7b\"Status\":\"Pending\"\x7d"

/-- An environment whose first attempt answers with the redirect body
in one second and whose later attempts answer `It works!`. -/
def redirectEnv : Nat → AttemptEnv := fun i =>
  if i = 0 then baseEnv (okResp jsonRedirectBody) 1 else baseEnv (okResp "It works!") 1

/-- A GCP scope configuration. -/
def gcpCfg : GCPOauthConfig :=
  { scopes := ["storage"], serviceAccountKey := "k", audience := "" }

/-- Client state holding a cached GCP token that expires at t = 300s. -/
def ksGcp : ClientState :=
  { gcpOauthToken := some { AccessToken := "cached", Expiry := 300 },
    gcpOauthConfig := some gcpCfg }

/-- A client with a static bearer and basic-auth credentials. -/
def bearerBasicClient : APIClient :=
  { plainClient with bearer := "token123", username := "u", password := "p" }

/-- The option record of the repository's own client test, with the
defaults left unset. -/
def testOpt : ApiClientOpt :=
  { uri := "http://127.0.0.1:8083/", insecure := false, username := "", password := "",
    bearer := "", headers := [], timeout := 2, idAttribute := "", createMethod := "",
    readMethod := "", updateMethod := "", updateData := "", destroyMethod := "",
    destroyData := "", copyKeys := [], writeReturnsObject := false,
    createReturnsObject := false, xssiPfx := "", useCookies := false, rateLimit := 1,
    oauthClientID := "", oauthClientSecret := "", oauthScopes := [], oauthTokenURL := "",
    oauthEndpointParams := [], certFile := "", keyFile := "", certString := "",
    keyString := "", debug := false, GCPOauthConfig := none, AzureOauthConfig := none,
    AsyncSettings := none }

/-! ## Helper lemmas -/

/-- Setting a header makes it the value subsequently looked up. -/
theorem getHeader_setHeader (hs : List (String × String)) (k v : String) :
    getHeader (setHeader hs k v) k = some v := by
  unfold getHeader setHeader
  induction hs with
  | nil => simp [List.lookup]
  | cons p t ih =>
      by_cases h : p.1 = k
      · simp only [List.filter, bne, h, beq_self_eq_true, Bool.not_true]
        exact ih
      · have h1 : (p.1 == k) = false := beq_eq_false_iff_ne.mpr h
        have h2 : (k == p.1) = false := beq_eq_false_iff_ne.mpr (Ne.symm h)
        simp only [List.filter, bne, h1, Bool.not_false, List.cons_append, List.lookup, h2]
        exact ih

/-! ## Claim C1 -/

/-- C1 (code bug): the claim says a cached GCP token is reused only
while the current time is at least one minute before its expiry.  The
code tests `time.Now().Add(-time.Minute).After(token.Expiry)`, i.e.
`expiry < now - 60`, which keeps serving the cached token until one
minute after expiry.  Evaluated at the failing inputs: with a cached
token expiring at t = 300, the call at t = 270 (inside the claimed
safety margin, since 240 < 270) and even the call at t = 330 (past
expiry) are both served the cached token; a refresh happens only once
t = 361 > 360. -/
theorem c1_gcp_margin_flipped :
    gcpExpired 270 300 = false ∧
    gcpExpired 330 300 = false ∧
    gcpExpired 361 300 = true ∧
    ((300 : Int) - 60) < 270 ∧
    ((buildHeaders plainClient (baseEnv (okResp "") 1) 270 "" ksGcp).map
        (fun r => getHeader r.1 "Authorization")).toOption = some (some "Bearer cached") ∧
    ((buildHeaders plainClient (baseEnv (okResp "") 1) 330 "" ksGcp).map
        (fun r => getHeader r.1 "Authorization")).toOption = some (some "Bearer cached") ∧
    ((buildHeaders plainClient (baseEnv (okResp "") 1) 361 "" ksGcp).map
        (fun r => getHeader r.1 "Authorization")).toOption = some (some "Bearer fresh") := by
  refine ⟨rfl, rfl, rfl, by decide, rfl, rfl, rfl⟩

/-! ## Claim C4 -/

/-- C4 (code bug): with `searchKey`/`searchValue` configured, a 2xx
body that is valid JSON but not an object (here `[1,2,3]`) makes the
unchecked type assertion `result.(map[string]interface{})` panic
instead of returning a parse error; a body that is not JSON at all does
surface the unmarshal error; the redirect-key extraction path panics on
the same body. -/
theorem c4_nonobject_body_panics :
    (sendRequest searchClient (fun _ => baseEnv (okResp "[1,2,3]") 1)
        10 0 "GET" "/a" "" ks0).1 = CallOutcome.panicked ∧
    (sendRequest searchClient (fun _ => baseEnv (okResp "not json") 1)
        10 0 "GET" "/a" "" ks0).1 = CallOutcome.failure GoErr.jsonSyntax ∧
    (sendRequest slowRedirectClient (fun _ => baseEnv (okResp "[1,2,3]") 1)
        10 0 "GET" "/a" "" ks0).1 = CallOutcome.panicked := by
  refine ⟨rfl, rfl, rfl⟩

/-! ## Claim C5 -/

/-- C5 (code bug): a transport-level failure of `httpClient.Do` hits
`log.Fatal(err)`, which terminates the whole process; the error is
never returned to the caller as the call's error result (the `return
err` after `log.Fatal` is dead code).  It is indeed not retried. -/
theorem c5_transport_error_fatal :
    (sendRequest plainClient (fun _ => baseEnv (HttpResult.transportErr "connection refused") 1)
        10 0 "GET" "/ok" "" ks0).1
      = CallOutcome.fatalExit (GoErr.message "connection refused") := rfl

/-! ## Claim C2 -/

/-- C2 (counterexample): with both a static bearer (`token123`) and
basic-auth credentials (`u`/`p`) configured, the Authorization header
of the built request is the basic-auth value `Basic dTpw`, not the
bearer header — so the bearer is not preserved and basic auth is
applied even though a bearer source is active. -/
theorem c2_counterexample :
    ((buildHeaders bearerBasicClient (baseEnv (okResp "") 1) 0 "" ks0).map
        (fun r => getHeader r.1 "Authorization")).toOption = some (some "Basic dTpw") ∧
    ("Basic dTpw" : String) ≠ "Bearer token123" ∧
    bearerBasicClient.bearer = "token123" := by
  refine ⟨rfl, by decide, rfl⟩

/-- C2 (amended): whenever username and password are both set,
`SetBasicAuth` runs unconditionally as the last header step, so the
Authorization header of every successfully built request is the
basic-auth value — overwriting, not preserving, any bearer set by a
higher-precedence source. -/
theorem c2_basic_auth_overwrites (client : APIClient) (e : AttemptEnv) (now : Int)
    (reqBody : String) (ks : ClientState) (hs : List (String × String)) (ks2 : ClientState)
    (hu : client.username ≠ "") (hp : client.password ≠ "")
    (hok : buildHeaders client e now reqBody ks = Except.ok (hs, ks2)) :
    getHeader hs "Authorization" = some (basicAuthValue client.username client.password) := by
  simp only [buildHeaders] at hok
  repeat' split at hok
  all_goals
    first
      | (rename_i hneg
         exact absurd (And.intro hu hp) hneg)
      | (simp only [Except.ok.injEq, Prod.mk.injEq] at hok
         rw [← hok.1]
         exact getHeader_setHeader _ _ _)
      | exact Except.noConfusion hok

/-- Witness for `c2_basic_auth_overwrites` at the concrete
bearer-plus-basic client. -/
theorem c2_basic_auth_overwrites_witness :
    getHeader [("Authorization", "Basic dTpw")] "Authorization"
      = some (basicAuthValue bearerBasicClient.username bearerBasicClient.password) :=
  c2_basic_auth_overwrites bearerBasicClient (baseEnv (okResp "") 1) 0 "" ks0
    [("Authorization", "Basic dTpw")] ks0 (by decide) (by decide) (by rfl)

/-! ## Claim C3 -/

/-- C3 (counterexample): the redirect follow-up goes through the
generic backoff driver.  First scenario: with a 2-second maximum
polling duration and a first attempt that takes 3 seconds, the call
fails with the redirect sentinel error without issuing the follow-up
GET — it fails the redirect follow-up solely because the maximum
polling duration was exceeded.  Second scenario: uncapped, with a
5-second poll interval, the follow-up GET is issued only at t = 6
(attempt start times 0 and 6), not immediately. -/
theorem c3_counterexample :
    (sendRequest cappedRedirectClient (fun _ => baseEnv (okResp jsonRedirectBody) 3)
        10 0 "GET" "/a" "" ks0).1 = CallOutcome.failure (GoErr.message redirectMsg) ∧
    (sendRequest slowRedirectClient redirectEnv 10 0 "GET" "/a" "" ks0).1
      = CallOutcome.success ∧
    (sendRequest slowRedirectClient redirectEnv 10 0 "GET" "/a" "" ks0).2.1.attemptTimes
      = [0, 6] ∧
    (sendRequest slowRedirectClient redirectEnv 10 0 "GET" "/a" "" ks0).2.1.redirectCount
      = 1 := by
  refine ⟨rfl, rfl, rfl, rfl⟩

/-- C3 (amended): the redirect rewrite is signalled as a retryable
error to the same backoff driver as the polling retry: the follow-up
attempt is not immediate — it runs only after the delay the driver
dictates — and it is subject to the maximum-polling-duration cap, whose
exhaustion surfaces the redirect sentinel error to the caller instead
of issuing the follow-up. -/
theorem c3_redirect_goes_through_backoff (client : APIClient) (env : Nat → AttemptEnv)
    (b : Backoff) (fuel i now : Nat) (cs cs1 : CallState) (ks ks1 : ClientState) (er : GoErr)
    (h : sendStep client (env i) (Int.ofNat now) (logAttempt cs now) ks
          = (StepExit.errRetryable er, cs1, ks1)) :
    retryDo client env b (fuel + 1) i now cs ks
      = match backoffNext b (now + (env i).duration) with
        | none => (CallOutcome.failure er, cs1, ks1)
        | some d => retryDo client env b fuel (i + 1) (now + (env i).duration + d) cs1 ks1 := by
  simp only [retryDo]
  rw [h]

/-- Witness for `c3_redirect_goes_through_backoff` at the concrete
slow-redirect scenario (the first attempt of which answers the
redirect body). -/
theorem c3_redirect_goes_through_backoff_witness :
    retryDo slowRedirectClient redirectEnv (makeBackoff slowRedirectClient 0) 2 0 0
        (initialCallState slowRedirectClient "GET" "/a" "") ks0
      = match backoffNext (makeBackoff slowRedirectClient 0) (0 + (redirectEnv 0).duration) with
        | none =>
            (CallOutcome.failure (GoErr.message redirectMsg),
             (sendStep slowRedirectClient (redirectEnv 0) (Int.ofNat 0)
                (logAttempt (initialCallState slowRedirectClient "GET" "/a" "") 0) ks0).2.1,
             (sendStep slowRedirectClient (redirectEnv 0) (Int.ofNat 0)
                (logAttempt (initialCallState slowRedirectClient "GET" "/a" "") 0) ks0).2.2)
        | some d =>
            retryDo slowRedirectClient redirectEnv (makeBackoff slowRedirectClient 0) 1 1
              (0 + (redirectEnv 0).duration + d)
              ((sendStep slowRedirectClient (redirectEnv 0) (Int.ofNat 0)
                (logAttempt (initialCallState slowRedirectClient "GET" "/a" "") 0) ks0).2.1)
              ((sendStep slowRedirectClient (redirectEnv 0) (Int.ofNat 0)
                (logAttempt (initialCallState slowRedirectClient "GET" "/a" "") 0) ks0).2.2) :=
  c3_redirect_goes_through_backoff slowRedirectClient redirectEnv
    (makeBackoff slowRedirectClient 0) 1 0 0
    (initialCallState slowRedirectClient "GET" "/a" "")
    ((sendStep slowRedirectClient (redirectEnv 0) (Int.ofNat 0)
      (logAttempt (initialCallState slowRedirectClient "GET" "/a" "") 0) ks0).2.1)
    ks0
    ((sendStep slowRedirectClient (redirectEnv 0) (Int.ofNat 0)
      (logAttempt (initialCallState slowRedirectClient "GET" "/a" "") 0) ks0).2.2)
    (GoErr.message redirectMsg) (by rfl)

/-! ## Claim C6 -/

/-- The async blocks preserve the redirect invariant: the rewrite
happens only while the one-shot flag is unset, and it sets the flag. -/
theorem processAsync_redirInv (client : APIClient) (body : String) (cs : CallState)
    (h : redirInv cs) : redirInv (processAsync client body cs).2 := by
  unfold processAsync
  repeat' split
  all_goals simp_all [redirInv]

/-- One attempt preserves the redirect invariant. -/
theorem sendStep_redirInv (client : APIClient) (e : AttemptEnv) (now : Int)
    (cs : CallState) (ks : ClientState) (h : redirInv cs) :
    redirInv (sendStep client e now cs ks).2.1 := by
  unfold sendStep
  repeat' split
  all_goals
    first
      | exact h
      | exact processAsync_redirInv client _ _ h

/-- The whole retry loop preserves the redirect invariant. -/
theorem retryDo_redirInv (client : APIClient) (env : Nat → AttemptEnv) (b : Backoff) :
    ∀ (fuel i now : Nat) (cs : CallState) (ks : ClientState), redirInv cs →
      redirInv (retryDo client env b fuel i now cs ks).2.1 := by
  intro fuel
  induction fuel with
  | zero => intro i now cs ks h; exact h
  | succ n ih =>
      intro i now cs ks h
      have hstep : redirInv (sendStep client (env i) (Int.ofNat now) (logAttempt cs now) ks).2.1 :=
        sendStep_redirInv client (env i) (Int.ofNat now) (logAttempt cs now) ks h
      simp only [retryDo]
      split
      all_goals rename_i heq
      all_goals rw [heq] at hstep
      all_goals
        first
          | exact hstep
          | (split
             · exact hstep
             · exact ih _ _ _ _ hstep)

/-- C6: within one send-and-complete call the redirect rewrite happens
at most once: whatever the environment answers — including follow-up
bodies that again carry the redirect key — the ghost redirect counter
of the finished call never exceeds one, because the rewrite is guarded
by the one-shot `requestIsRedirected` flag. -/
theorem c6_redirect_at_most_once (client : APIClient) (env : Nat → AttemptEnv)
    (fuel t0 : Nat) (method path data : String) (ks : ClientState) :
    (sendRequest client env fuel t0 method path data ks).2.1.redirectCount ≤ 1 :=
  (retryDo_redirInv client env (makeBackoff client t0) fuel 0 t0
    (initialCallState client method path data) ks
    ⟨Nat.zero_le 1, fun _ => rfl⟩).1

/-! ## Claim C7 -/

/-- The async blocks emit a retryable error only with the redirect
sentinel or the search-mismatch sentinel. -/
theorem processAsync_retryable (client : APIClient) (body : String) (cs : CallState)
    (er : GoErr) (h : (processAsync client body cs).1 = StepExit.errRetryable er) :
    er = GoErr.message redirectMsg ∨ er = GoErr.message mismatchMsg := by
  simp only [processAsync] at h
  repeat' split at h
  all_goals
    first
      | exact StepExit.noConfusion h
      | (injection h with h3
         first
           | exact Or.inl h3.symm
           | exact Or.inr h3.symm)

/-- An attempt emits a retryable error only with the redirect sentinel
or the search-mismatch sentinel; every other exit of the attempt is
terminal for the loop. -/
theorem sendStep_retryable (client : APIClient) (e : AttemptEnv) (now : Int)
    (cs cs1 : CallState) (ks ks1 : ClientState) (er : GoErr)
    (h : sendStep client e now cs ks = (StepExit.errRetryable er, cs1, ks1)) :
    er = GoErr.message redirectMsg ∨ er = GoErr.message mismatchMsg := by
  simp only [sendStep] at h
  repeat' split at h
  all_goals injection h with h1 h2
  all_goals
    first
      | exact StepExit.noConfusion h1
      | exact processAsync_retryable _ _ _ _ h1

/-- C7 (counterexample): the redirect follow-up is a second
automatically retried condition.  In the slow-redirect scenario the
search keys are unset, the first attempt exits with the retryable
redirect sentinel — a condition other than a search-value mismatch —
and the call does not surface it on first occurrence: a second attempt
runs and the call succeeds. -/
theorem c7_counterexample :
    (sendStep slowRedirectClient (redirectEnv 0) (Int.ofNat 0)
        (logAttempt (initialCallState slowRedirectClient "GET" "/a" "") 0) ks0).1
      = StepExit.errRetryable (GoErr.message redirectMsg) ∧
    redirectMsg ≠ mismatchMsg ∧
    slowRedirectSettings.SearchKey = "" ∧
    (sendRequest slowRedirectClient redirectEnv 10 0 "GET" "/a" "" ks0).1
      = CallOutcome.success ∧
    (sendRequest slowRedirectClient redirectEnv 10 0 "GET" "/a" "" ks0).2.1.attemptTimes.length
      = 2 := by
  refine ⟨rfl, by decide, rfl, rfl, rfl⟩

/-- C7 (amended): exactly two conditions are signalled as retryable to
the backoff driver — the search-value mismatch and the one-shot
redirect follow-up (first conjunct); every non-retryable attempt error
surfaces to the caller on its first occurrence without any retry
(second conjunct); and when the backoff budget is exhausted the last
retryable error is what surfaces to the caller (third conjunct). -/
theorem c7_retry_discipline :
    (∀ (client : APIClient) (e : AttemptEnv) (now : Int) (cs cs1 : CallState)
        (ks ks1 : ClientState) (er : GoErr),
        sendStep client e now cs ks = (StepExit.errRetryable er, cs1, ks1) →
          er = GoErr.message redirectMsg ∨ er = GoErr.message mismatchMsg) ∧
    (∀ (client : APIClient) (env : Nat → AttemptEnv) (b : Backoff) (fuel i now : Nat)
        (cs cs1 : CallState) (ks ks1 : ClientState) (er : GoErr),
        sendStep client (env i) (Int.ofNat now) (logAttempt cs now) ks
            = (StepExit.errPlain er, cs1, ks1) →
          retryDo client env b (fuel + 1) i now cs ks = (CallOutcome.failure er, cs1, ks1)) ∧
    (∀ (client : APIClient) (env : Nat → AttemptEnv) (b : Backoff) (fuel i now : Nat)
        (cs cs1 : CallState) (ks ks1 : ClientState) (er : GoErr),
        sendStep client (env i) (Int.ofNat now) (logAttempt cs now) ks
            = (StepExit.errRetryable er, cs1, ks1) →
        backoffNext b (now + (env i).duration) = none →
          retryDo client env b (fuel + 1) i now cs ks = (CallOutcome.failure er, cs1, ks1)) := by
  refine ⟨?_, ?_, ?_⟩
  · intro client e now cs cs1 ks ks1 er h
    exact sendStep_retryable client e now cs cs1 ks ks1 er h
  · intro client env b fuel i now cs cs1 ks ks1 er h
    simp only [retryDo]
    rw [h]
  · intro client env b fuel i now cs cs1 ks ks1 er h hb
    simp only [retryDo]
    rw [h, hb]

/-- Witness for `c7_retry_discipline`, instantiating all three
conjuncts on concrete runs: the mismatch sentinel of the polling
scenario is one of the two retryable conditions; a 404 answer is
returned to the caller with no retry; and the capped polling scenario,
entered at the moment its budget is spent, surfaces the mismatch
sentinel. -/
theorem c7_retry_discipline_witness :
    (GoErr.message mismatchMsg = GoErr.message redirectMsg ∨
       GoErr.message mismatchMsg = GoErr.message mismatchMsg) ∧
    retryDo plainClient (fun _ => baseEnv (HttpResult.resp 404 "nope") 1)
        (makeBackoff plainClient 0) 3 0 0
        (initialCallState plainClient "GET" "/a" "") ks0
      = (CallOutcome.failure (GoErr.statusErr 404 "nope"),
         (sendStep plainClient (baseEnv (HttpResult.resp 404 "nope") 1) (Int.ofNat 0)
           (logAttempt (initialCallState plainClient "GET" "/a" "") 0) ks0).2.1,
         ks0) ∧
    retryDo cappedSearchClient (fun _ => baseEnv (okResp pendingBody) 2)
        (makeBackoff cappedSearchClient 0) 3 0 0
        (initialCallState cappedSearchClient "GET" "/a" "") ks0
      = (CallOutcome.failure (GoErr.message mismatchMsg),
         (sendStep cappedSearchClient (baseEnv (okResp pendingBody) 2) (Int.ofNat 0)
           (logAttempt (initialCallState cappedSearchClient "GET" "/a" "") 0) ks0).2.1,
         ks0) := by
  refine ⟨?_, ?_, ?_⟩
  · exact c7_retry_discipline.1 searchClient (baseEnv (okResp pendingBody) 0) 0
      (logAttempt (initialCallState searchClient "GET" "/a" "") 0)
      ((sendStep searchClient (baseEnv (okResp pendingBody) 0) 0
        (logAttempt (initialCallState searchClient "GET" "/a" "") 0) ks0).2.1)
      ks0 ks0 (GoErr.message mismatchMsg) (by rfl)
  · exact c7_retry_discipline.2.1 plainClient (fun _ => baseEnv (HttpResult.resp 404 "nope") 1)
      (makeBackoff plainClient 0) 2 0 0
      (initialCallState plainClient "GET" "/a" "")
      ((sendStep plainClient (baseEnv (HttpResult.resp 404 "nope") 1) (Int.ofNat 0)
        (logAttempt (initialCallState plainClient "GET" "/a" "") 0) ks0).2.1)
      ks0 ks0 (GoErr.statusErr 404 "nope") (by rfl)
  · exact c7_retry_discipline.2.2 cappedSearchClient (fun _ => baseEnv (okResp pendingBody) 2)
      (makeBackoff cappedSearchClient 0) 2 0 0
      (initialCallState cappedSearchClient "GET" "/a" "")
      ((sendStep cappedSearchClient (baseEnv (okResp pendingBody) 2) (Int.ofNat 0)
        (logAttempt (initialCallState cappedSearchClient "GET" "/a" "") 0) ks0).2.1)
      ks0 ks0 (GoErr.message mismatchMsg) (by rfl) (by rfl)

/-! ## Claim C8 -/

/-- A string whose head is not a slash has no leading slash run. -/
theorem leadingSlashRun_zero (l : List Char) (h : l.head? ≠ some '/') :
    leadingSlashRun l = 0 := by
  cases l with
  | nil => rfl
  | cons c cs =>
      have hc : ¬ c = '/' := fun e => h (by simp [e])
      simp [leadingSlashRun, hc]

/-- A string whose last character is not a slash has no trailing slash
run. -/
theorem trailingSlashRun_zero (l : List Char) (h : l.getLast? ≠ some '/') :
    trailingSlashRun l = 0 := by
  unfold trailingSlashRun
  apply leadingSlashRun_zero
  rw [List.head?_reverse]
  exact h

/-- The construction-time strip removes exactly the one trailing slash. -/
theorem goStripSlash_concat (b : List Char) : goStripSlash (b ++ [ '/' ]) = b := by
  have hsuf : hasTrailingSlash (b ++ [ '/' ]) = true := by
    simp [hasTrailingSlash, List.isSuffixOf]
  simp [goStripSlash, hsuf]

/-- C8 (counterexample): the quantification over every base URI with a
trailing slash and every path fails.  For base `b/` and path `p` the
effective URI is `bp` — zero slashes at the junction; for base
`http://a//` (which ends in a slash) and path `/p` the effective URI is
`http://a//p` — two slashes at the junction, since only one trailing
slash is stripped and the path is appended verbatim. -/
theorem c8_counterexample :
    hasTrailingSlash (String.toList "b/") = true ∧
    requestUriChars (goStripSlash (String.toList "b/")) (String.toList "p")
      = String.toList "bp" ∧
    junctionSlashes (goStripSlash (String.toList "b/")) (String.toList "p") = 0 ∧
    hasTrailingSlash (String.toList "http://a//") = true ∧
    requestUriChars (goStripSlash (String.toList "http://a//")) (String.toList "/p")
      = String.toList "http://a//p" ∧
    junctionSlashes (goStripSlash (String.toList "http://a//")) (String.toList "/p") = 2 := by
  refine ⟨by decide, by decide, by decide, by decide, by decide, by decide⟩

/-- C8 (amended): construction strips exactly one trailing slash and
`sendRequest` appends the path verbatim; for a base URI ending in a
single trailing slash and a path beginning with a single leading slash,
the effective request URI carries exactly one slash at the junction. -/
theorem c8_junction_single_slash (b q : List Char)
    (hb : b.getLast? ≠ some '/') (hq : q.head? ≠ some '/') :
    goStripSlash (b ++ [ '/' ]) = b ∧
    requestUriChars (goStripSlash (b ++ [ '/' ])) ( '/' :: q) = b ++ '/' :: q ∧
    junctionSlashes (goStripSlash (b ++ [ '/' ])) ( '/' :: q) = 1 := by
  have h1 := goStripSlash_concat b
  refine ⟨h1, by rw [requestUriChars, h1], ?_⟩
  rw [junctionSlashes, h1, trailingSlashRun_zero b hb]
  simp [leadingSlashRun, leadingSlashRun_zero q hq]

/-- Witness for `c8_junction_single_slash` on a concrete base and path. -/
theorem c8_junction_single_slash_witness :
    goStripSlash (String.toList "http://a" ++ [ '/' ]) = String.toList "http://a" ∧
    requestUriChars (goStripSlash (String.toList "http://a" ++ [ '/' ]))
        ( '/' :: String.toList "ok")
      = String.toList "http://a" ++ '/' :: String.toList "ok" ∧
    junctionSlashes (goStripSlash (String.toList "http://a" ++ [ '/' ]))
        ( '/' :: String.toList "ok") = 1 :=
  c8_junction_single_slash (String.toList "http://a") (String.toList "ok")
    (by decide) (by decide)

/-! ## Claim C9 -/

/-- C9: `NewAPIClient` writes through the caller's option record: given
a non-empty URI, the record afterwards carries the stripped URI and the
defaulted id attribute and verb methods — each filled exactly when it
was unset — and no other field of the record is changed (the update
form fixes every remaining field).  The second conjunct records that
every applied default is non-empty, so an unset (empty) field always
differs after construction. -/
theorem c9_construction_mutates_opt (opt : ApiClientOpt) (h : opt.uri ≠ "") :
    applyOptDefaults opt = Except.ok ({ opt with
      uri := goStripSlashStr opt.uri,
      idAttribute := if opt.idAttribute = "" then "id" else opt.idAttribute,
      createMethod := if opt.createMethod = "" then "POST" else opt.createMethod,
      readMethod := if opt.readMethod = "" then "GET" else opt.readMethod,
      updateMethod := if opt.updateMethod = "" then "PUT" else opt.updateMethod,
      destroyMethod := if opt.destroyMethod = "" then "DELETE" else opt.destroyMethod }) ∧
    ("id" : String) ≠ "" ∧ ("POST" : String) ≠ "" ∧ ("GET" : String) ≠ "" ∧
    ("PUT" : String) ≠ "" ∧ ("DELETE" : String) ≠ "" := by
  refine ⟨?_, by decide, by decide, by decide, by decide, by decide⟩
  unfold applyOptDefaults
  rw [if_neg h]
  by_cases h1 : opt.idAttribute = "" <;> by_cases h2 : opt.createMethod = "" <;>
    by_cases h3 : opt.readMethod = "" <;> by_cases h4 : opt.updateMethod = "" <;>
    by_cases h5 : opt.destroyMethod = "" <;>
    simp [h1, h2, h3, h4, h5]

/-- Witness for `c9_construction_mutates_opt` on the repository's own
test configuration (trailing-slash URI, all defaults unset). -/
theorem c9_construction_mutates_opt_witness :
    applyOptDefaults testOpt = Except.ok ({ testOpt with
      uri := goStripSlashStr testOpt.uri,
      idAttribute := if testOpt.idAttribute = "" then "id" else testOpt.idAttribute,
      createMethod := if testOpt.createMethod = "" then "POST" else testOpt.createMethod,
      readMethod := if testOpt.readMethod = "" then "GET" else testOpt.readMethod,
      updateMethod := if testOpt.updateMethod = "" then "PUT" else testOpt.updateMethod,
      destroyMethod := if testOpt.destroyMethod = "" then "DELETE" else testOpt.destroyMethod }) ∧
    ("id" : String) ≠ "" ∧ ("POST" : String) ≠ "" ∧ ("GET" : String) ≠ "" ∧
    ("PUT" : String) ≠ "" ∧ ("DELETE" : String) ≠ "" :=
  c9_construction_mutates_opt testOpt (by decide)

/-! ## Claim C10 -/

/-- Character lists of appended strings concatenate. -/
theorem goStrToListAppend (a b : String) :
    (a ++ b).toList = a.toList ++ b.toList := by
  cases a; cases b; rfl

/-- Once the Google scope base URL is prepended, the scope contains a
double slash, so a second pass leaves it alone; already-skipped scopes
are skipped again. -/
theorem rewriteScope_idem (s : String) : rewriteScope (rewriteScope s) = rewriteScope s := by
  by_cases h : (!goContains s "//" && !openIdScopesMatch s) = true
  · have houter : rewriteScope s = scopePrefixStr ++ s := by
      unfold rewriteScope
      rw [if_pos h]
    have hc : goContains (scopePrefixStr ++ s) "//" = true := by
      unfold goContains
      rw [decide_eq_true_eq, goStrToListAppend]
      have h1 : ("//" : String).toList <:+: scopePrefixStr.toList := by decide
      exact h1.trans (List.prefix_append _ _).isInfix
    rw [houter]
    unfold rewriteScope
    rw [if_neg (by simp [hc])]
  · have houter : rewriteScope s = s := by
      unfold rewriteScope
      rw [if_neg h]
    rw [houter, houter]

/-- The in-place rewrite of the whole scope slice is idempotent. -/
theorem parseScopesList_idem (scopes : List String) :
    parseScopesList (parseScopesList scopes) = parseScopesList scopes := by
  unfold parseScopesList
  rw [List.map_map]
  exact List.map_congr_left (fun a _ => rewriteScope_idem a)

/-- C10: `parseScopes` destructively normalizes the scope slice, the
normalization is idempotent element-wise and on the joined string, and
because `GetGCPOauthToken` runs it on the shared `GCPOauthConfig`, the
rewritten slice persists across token fetches: a first fetch leaves the
config with the rewritten scopes and a second fetch no longer changes
it. -/
theorem c10_parse_scopes_idempotent :
    (∀ scopes : List String,
        parseScopesList (parseScopesList scopes) = parseScopesList scopes) ∧
    (∀ scopes : List String,
        parseScopesJoined (parseScopesList scopes) = parseScopesJoined scopes) ∧
    (∀ (cfg : GCPOauthConfig) (r1 r2 : Except String Token),
        (getGCPOauthToken cfg r1).1
            = ({ cfg with scopes := parseScopesList cfg.scopes }) ∧
        (getGCPOauthToken (getGCPOauthToken cfg r1).1 r2).1 = (getGCPOauthToken cfg r1).1) := by
  refine ⟨parseScopesList_idem, ?_, ?_⟩
  · intro scopes
    unfold parseScopesJoined
    rw [parseScopesList_idem]
  · intro cfg r1 r2
    refine ⟨rfl, ?_⟩
    simp only [getGCPOauthToken]
    rw [parseScopesList_idem]

end RestApi
